import Mathlib

/-!
Shallow embedding of the acmetk ACME protocol engine
(`acme_broker/models/order.py`, `acme_broker/models/challenge.py`,
`acme_broker/database.py`, `acme_broker/server/server.py`) together with
theorems settling the specification claims about it.

Timestamps are modelled as natural numbers (seconds); `datetime.now()` becomes
an explicit `now : Nat` argument.  Database sessions become explicit lists of
records; raising an exception becomes `Except`.
-/

namespace Acme

/-- The enum `OrderStatus` from `models/order.py`. -/
inductive OrderStatus
  | pending
  | ready
  | processing
  | valid
  | invalid
  deriving DecidableEq, Repr

/-- The enum `AuthorizationStatus`.  The module `models/authorization.py` is not part of
the sources at hand; modelled from the spec: status `pending → valid | invalid`. -/
inductive AuthorizationStatus
  | pending
  | valid
  | invalid
  deriving DecidableEq, Repr

/-- The enum `ChallengeStatus` from `models/challenge.py`. -/
inductive ChallengeStatus
  | pending
  | processing
  | valid
  | invalid
  deriving DecidableEq, Repr

/-- The enum `ChallengeType` from `models/challenge.py`. -/
inductive ChallengeType
  | http01
  | dns01
  deriving DecidableEq, Repr

/-- A `Challenge` row (`models/challenge.py`): verification type, status and
the optional validation timestamp. -/
structure Challenge where
  type : ChallengeType
  status : ChallengeStatus
  validated : Option Nat := none
  deriving DecidableEq, Repr

/-- An `Authorization` row.  `models/authorization.py` is not part of the
sources at hand; modelled from the spec: it carries a status and owns a list
of Challenges. -/
structure Authorization where
  status : AuthorizationStatus
  challenges : List Challenge := []
  deriving DecidableEq, Repr

/-- The predicate `Authorization.is_valid()`.  Modelled from the spec: a pure predicate,
true exactly when the authorization's status is `valid`. -/
def Authorization.is_valid (a : Authorization) : Bool :=
  a.status = AuthorizationStatus.valid

/-- An `Identifier` row (`models/identifier.py` is not part of the sources at
hand; modelled from the spec): a requested name owning exactly one
Authorization. -/
structure Identifier where
  value : String
  authorization : Authorization
  deriving DecidableEq, Repr

/-- An `Order` row (`models/order.py`): status, expiry timestamp, the owning
account's key identifier and the list of identifiers. -/
structure Order where
  status : OrderStatus
  expires : Nat
  account_kid : String := ""
  identifiers : List Identifier
  deriving DecidableEq, Repr

/-- The `for ... else` loop in `Order.validate`: walk the identifiers;
on the first authorization with status `invalid` the status becomes `invalid`
(`break` after assignment); on the first authorization that is not `is_valid()`
the loop just breaks (`none`: the status field is left alone); if the loop
runs to completion the `else` clause sets the status to `ready`. -/
def Order.scanAuthorizations : List Identifier → Option OrderStatus
  | [] => some OrderStatus.ready
  | i :: rest =>
    if i.authorization.status = AuthorizationStatus.invalid then
      some OrderStatus.invalid
    else if ¬ i.authorization.is_valid then
      none
    else
      Order.scanAuthorizations rest

/-- The method `Order.validate` (`models/order.py`): returns the updated order together
with the status that the Python method returns. -/
def Order.validate (now : Nat) (o : Order) : Order × OrderStatus :=
  if o.status ≠ OrderStatus.pending then
    (o, o.status)
  else if now > o.expires then
    ({ o with status := OrderStatus.invalid }, OrderStatus.invalid)
  else
    match Order.scanAuthorizations o.identifiers with
    | some s => ({ o with status := s }, s)
    | none => (o, o.status)

/-- The method `Challenge.validate` (`models/challenge.py`): if the status is neither
`pending` nor `processing` the stored status is returned unchanged; otherwise
the status becomes `valid`, the validation timestamp is recorded, and the
parent authorization's finalization (`await self.authorization.validate(session)`,
called `finalize()` by the method's docstring and by the spec; the
Authorization class itself is not in the sources at hand) is triggered.
The returned triple is (updated challenge, whether the parent operation was
triggered, the returned status). -/
def Challenge.validate (now : Nat) (c : Challenge) :
    Challenge × Bool × ChallengeStatus :=
  if c.status ≠ ChallengeStatus.pending ∧ c.status ≠ ChallengeStatus.processing then
    (c, false, c.status)
  else
    ({ c with status := ChallengeStatus.valid, validated := some now },
      true, ChallengeStatus.valid)

/-- The constructor `Challenge.create_types`.  The sources at hand only contain
`Challenge.create_all`; modelled from the spec: one Challenge with status
`pending` per configured challenge type. -/
def Challenge.create_types (types : List ChallengeType) : List Challenge :=
  types.map fun t => { type := t, status := ChallengeStatus.pending }

/-- The constructor `Authorization.for_identifier`.  Not in the sources at hand; modelled from
the spec: a fresh Authorization (status `pending`) for the identifier, whose
challenges are filled in afterwards by `Order.from_obj`. -/
def Authorization.for_identifier (_i : Identifier) : Authorization :=
  { status := AuthorizationStatus.pending, challenges := [] }

/-- The payload of a new-order request: the requested identifier values. -/
structure NewOrderObj where
  identifiers : List String
  deriving DecidableEq, Repr

/-- The constructor `Order.from_obj` (`models/order.py`): one Identifier per requested name,
each given one Authorization holding `Challenge.create_types challenge_types`;
the order expires 7 days (604800 seconds) after creation and starts `pending`. -/
def Order.from_obj (now : Nat) (account_kid : String) (obj : NewOrderObj)
    (challenge_types : List ChallengeType) : Order :=
  let identifiers := obj.identifiers.map fun v =>
    let i : Identifier := { value := v, authorization := { status := AuthorizationStatus.pending } }
    { i with authorization :=
        { Authorization.for_identifier i with
            challenges := Challenge.create_types challenge_types } }
  { expires := now + 7 * 86400
    status := OrderStatus.pending
    account_kid := account_kid
    identifiers := identifiers }

/-- A certificate signing request, reduced to the names it embeds. -/
structure CSR where
  names : List String
  deriving DecidableEq, Repr

/-- Python's `str.lower()`: every character mapped to its lower-case form. -/
def strLower (s : String) : String :=
  String.mk (s.data.map Char.toLower)

/-- The helper `names_of(csr, lower=True)` from `util.py` (not in the sources at hand;
modelled from the spec: the set of names embedded in the CSR, lowercased). -/
def names_of (csr : CSR) : Finset String :=
  (csr.names.map strLower).toFinset

/-- The method `Order.validate_csr` (`models/order.py`): the lowercased identifier values
of the order, as a set, must equal the lowercased names of the CSR. -/
def Order.validate_csr (o : Order) (csr : CSR) : Bool :=
  (o.identifiers.map fun i => strLower i.value).toFinset = names_of csr

/-- The errors the server raises (`acme.messages.Error.with_code(...)`), plus
`assertionFailed` for a failing Python `assert` statement, which surfaces as an
`AssertionError`, not as an ACME protocol error. -/
inductive AcmeError
  | badNonce
  | assertionFailed
  | badPublicKey
  | malformed
  | unauthorized
  | accountDoesNotExist
  | termsNotAgreed
  | orderNotReady
  deriving DecidableEq, Repr

/-- The method `AcmeCA._issue_nonce` (`server/server.py`): adds a freshly generated nonce
to the outstanding set and returns it. -/
def issue_nonce (nonces : Finset String) (fresh : String) :
    Finset String × String :=
  (insert fresh nonces, fresh)

/-- The method `AcmeCA._verify_nonce` (`server/server.py`): if the token is in the
outstanding set, remove it and succeed with the new set; otherwise raise
`badNonce` (the set is left unchanged, since `remove` is never reached). -/
def verify_nonce (nonces : Finset String) (t : String) :
    Except AcmeError (Finset String) :=
  if t ∈ nonces then Except.ok (nonces.erase t)
  else Except.error AcmeError.badNonce

/-- Python truthiness of an optional string (or bytes): `None` and the empty
string are falsy. -/
def truthy : Option String → Bool
  | none => false
  | some s => ¬ s.isEmpty

/-- The parts of a parsed signed request envelope that `_verify_request`
inspects: the protected header's nonce, the embedded public key (jwk) and the
key identifier (kid), plus whether `jws.verify(sig.combined.jwk)` would
succeed. -/
structure SignedRequest where
  nonce : Option String
  jwk : Option String
  kid : Option String
  sigOk : Bool
  deriving DecidableEq, Repr

/-- The expression `kid.split('/')[-1]`: the last segment of a `/`-separated string. -/
def lastSegment (s : String) : String :=
  (s.splitOn "/").getLastD ""

/-- The method `AcmeCA._verify_request` (`server/server.py`): consume the nonce (a missing
nonce is never in the set, hence `badNonce`); then `assert jwk ⊕ kid` — both or
neither present raises an `AssertionError`, modelled as `assertionFailed`;
under `key_auth` verify the signature against the embedded jwk
(`badPublicKey` on failure) and return no kid; otherwise `elif
sig.combined.kid:` tests Python *truthiness*, so a present non-empty kid
yields its last path segment while a missing — or present but empty — kid
falls through to `raise malformed`.
Returns the remaining nonce set and the resolved kid. -/
def verify_request (nonces : Finset String) (key_auth : Bool)
    (r : SignedRequest) : Except AcmeError (Finset String × Option String) :=
  match (match r.nonce with
         | some n => verify_nonce nonces n
         | none => Except.error AcmeError.badNonce) with
  | Except.error e => Except.error e
  | Except.ok nonces' =>
    if r.jwk.isSome = r.kid.isSome then
      Except.error AcmeError.assertionFailed
    else if key_auth then
      if r.sigOk then Except.ok (nonces', none)
      else Except.error AcmeError.badPublicKey
    else match r.kid with
      | some k =>
        if ¬ k.isEmpty then Except.ok (nonces', some (lastSegment k))
        else Except.error AcmeError.malformed
      | none => Except.error AcmeError.malformed

/-- The enum `AccountStatus` (`models/account.py` is not in the sources at hand;
modelled from the spec: `valid`/`deactivated`/`revoked`). -/
inductive AccountStatus
  | valid
  | deactivated
  | revoked
  deriving DecidableEq, Repr

/-- An `Account` row: public key, derived key identifier, status, contact. -/
structure Account where
  key : String
  kid : String
  status : AccountStatus
  contact : List String := []
  deriving DecidableEq, Repr

/-- The registration payload fields `_new_account` reads. -/
structure Registration where
  only_return_existing : Bool
  terms_of_service_agreed : Bool
  contact : List String := []
  deriving DecidableEq, Repr

/-- The outcome of a successful `_new_account` call: the existing account was
returned (HTTP 200) or a new account was created (HTTP 201). -/
inductive NewAccountResult
  | existing (a : Account)
  | created (a : Account)
  deriving DecidableEq, Repr

/-- The method `Database.get_account(session, key)` restricted to key lookup: the first
account whose key matches. -/
def get_account_by_key (accounts : List Account) (key : String) :
    Option Account :=
  accounts.find? fun a => a.key = key

/-- The handler `AcmeCA._new_account` (`server/server.py`): look the account up by the
embedded key.  If found: `unauthorized` unless its status is `valid`, else
return it.  If not found: `accountDoesNotExist` when `onlyReturnExisting`,
`termsNotAgreed` when the terms were not agreed to, and otherwise create a new
`valid` account whose kid is `digest` of the serialized key.  Returns the
updated account list and the result. -/
def new_account (digest : String → String) (accounts : List Account)
    (key : String) (reg : Registration) :
    Except AcmeError (List Account × NewAccountResult) :=
  match get_account_by_key accounts key with
  | some account =>
    if account.status ≠ AccountStatus.valid then
      Except.error AcmeError.unauthorized
    else
      Except.ok (accounts, NewAccountResult.existing account)
  | none =>
    if reg.only_return_existing then
      Except.error AcmeError.accountDoesNotExist
    else if ¬ reg.terms_of_service_agreed then
      Except.error AcmeError.termsNotAgreed
    else
      let a : Account := { key := key, kid := digest key,
                           status := AccountStatus.valid,
                           contact := reg.contact }
      Except.ok (accounts ++ [a], NewAccountResult.created a)

/-- The handler `AcmeCA._finalize_order` (`server/server.py`), for an order already fetched
from the database: recompute the order's status (`await order.finalize(session)`,
the idempotent recomputation embodied by `Order.validate`); raise
`orderNotReady` unless the recomputed status is `ready`.  The handler then
decodes the CSR from the payload but performs no check on it (the
certificate-issuance path is a stub), so the CSR argument is unused. -/
def finalize_order (now : Nat) (o : Order) (_csr : CSR) :
    Except AcmeError Order :=
  let (o', s) := Order.validate now o
  if s ≠ OrderStatus.ready then Except.error AcmeError.orderNotReady
  else Except.ok o'

/-- A row of the `orders` table as `database.py` joins it: external id plus the
foreign key to the owning account. -/
structure OrderRow where
  order_id : String
  account_kid : String
  deriving DecidableEq, Repr

/-- A row of the `identifiers` table: external id plus the foreign key to the
order it belongs to. -/
structure IdentifierRow where
  identifier_id : String
  order_id : String
  deriving DecidableEq, Repr

/-- A row of the `authorizations` table: external id plus the foreign key to
its identifier. -/
structure AuthorizationRow where
  authorization_id : String
  identifier_id : String
  deriving DecidableEq, Repr

/-- A row of the `challenges` table: external id plus the foreign key to its
authorization. -/
structure ChallengeRow where
  challenge_id : String
  authorization_id : String
  deriving DecidableEq, Repr

/-- A row of the `certificates` table: external id, the foreign key to the
owning account (through its order, flattened here) and the raw certificate. -/
structure CertificateRow where
  certificate_id : String
  account_kid : String
  cert : String
  deriving DecidableEq, Repr

/-- The relational state `database.py` queries against. -/
structure DB where
  accounts : List Account
  orders : List OrderRow
  identifiers : List IdentifierRow
  authorizations : List AuthorizationRow
  challenges : List ChallengeRow
  certificates : List CertificateRow
  deriving Repr

/-- The query `Database.get_order` (`database.py`): `select(Order).join(Account)` filtered
by `kid == Account.kid` and `order_id == Order.order_id`; `.first()`. -/
def DB.get_order (db : DB) (kid order_id : String) : Option OrderRow :=
  (db.orders.filter fun o =>
    o.order_id = order_id ∧
      db.accounts.any fun a => a.kid = o.account_kid ∧ kid = a.kid).head?

/-- The query `Database.get_authz` (`database.py`): `select(Authorization).join(Identifier)
.join(Order).join(Account)` filtered by `kid == Account.kid` and the
authorization id; `.first()`. -/
def DB.get_authz (db : DB) (kid authz_id : String) : Option AuthorizationRow :=
  (db.authorizations.filter fun az =>
    az.authorization_id = authz_id ∧
      db.identifiers.any fun i => i.identifier_id = az.identifier_id ∧
        db.orders.any fun o => o.order_id = i.order_id ∧
          db.accounts.any fun a => a.kid = o.account_kid ∧ kid = a.kid).head?

/-- The query `Database.get_challenge` (`database.py`): `select(Challenge)
.join(Authorization).join(Identifier).join(Order).join(Account)` filtered by
`kid == Account.kid` and the challenge id; `.first()`.  The eager-loading
options shape only what is prefetched, not which row is returned. -/
def DB.get_challenge (db : DB) (kid challenge_id : String) :
    Option ChallengeRow :=
  (db.challenges.filter fun c =>
    c.challenge_id = challenge_id ∧
      db.authorizations.any fun az => az.authorization_id = c.authorization_id ∧
        db.identifiers.any fun i => i.identifier_id = az.identifier_id ∧
          db.orders.any fun o => o.order_id = i.order_id ∧
            db.accounts.any fun a => a.kid = o.account_kid ∧ kid = a.kid).head?

/-- The query `Database.get_certificate` (`database.py`): when `kid` and `certificate_id`
are both truthy, look up by certificate id scoped through the account's kid;
`elif certificate:` look up by the raw certificate; otherwise raise
`ValueError` without any lookup.  The parsed-certificate argument is an object,
truthy exactly when present, modelled as `Option String` of its bytes. -/
def DB.get_certificate (db : DB) (kid certificate_id : Option String)
    (certificate : Option String) : Except String (Option CertificateRow) :=
  if truthy kid ∧ truthy certificate_id then
    Except.ok ((db.certificates.filter fun c =>
      (some c.account_kid = kid) ∧ some c.certificate_id = certificate_id).head?)
  else if certificate.isSome then
    Except.ok ((db.certificates.filter fun c => some c.cert = certificate).head?)
  else
    Except.error "Either kid and certificate_id OR certificate should be specified"

/-! ## Theorems -/

theorem scanAuthorizations_eq_ready_iff (l : List Identifier) :
    Order.scanAuthorizations l = some OrderStatus.ready ↔
      ∀ i ∈ l, i.authorization.is_valid = true := by
  induction l with
  | nil => simp [Order.scanAuthorizations]
  | cons a rest ih =>
    by_cases ha : a.authorization.status = AuthorizationStatus.invalid
    · simp [Order.scanAuthorizations, ha, Authorization.is_valid]
    · by_cases hv : a.authorization.is_valid = true
      · simp [Order.scanAuthorizations, ha, hv, ih]
      · simp [Order.scanAuthorizations, ha, hv]

theorem scanAuthorizations_eq_invalid_iff (l : List Identifier) :
    Order.scanAuthorizations l = some OrderStatus.invalid ↔
      ∃ l₁ i l₂, l = l₁ ++ i :: l₂ ∧
        (∀ j ∈ l₁, j.authorization.is_valid = true) ∧
        i.authorization.status = AuthorizationStatus.invalid := by
  induction l with
  | nil =>
    simp [Order.scanAuthorizations]
  | cons a rest ih =>
    by_cases ha : a.authorization.status = AuthorizationStatus.invalid
    · constructor
      · intro _
        exact ⟨[], a, rest, by simp, by simp, ha⟩
      · intro _
        simp [Order.scanAuthorizations, ha]
    · by_cases hv : a.authorization.is_valid = true
      · have hstep : Order.scanAuthorizations (a :: rest) =
            Order.scanAuthorizations rest := by
          simp [Order.scanAuthorizations, ha, hv]
        rw [hstep, ih]
        constructor
        · rintro ⟨l₁, i, l₂, hsplit, hval, hinv⟩
          exact ⟨a :: l₁, i, l₂, by simp [hsplit], by
            intro j hj
            rcases List.mem_cons.mp hj with h | h
            · exact h ▸ hv
            · exact hval j h, hinv⟩
        · rintro ⟨l₁, i, l₂, hsplit, hval, hinv⟩
          cases l₁ with
          | nil =>
            simp only [List.nil_append, List.cons.injEq] at hsplit
            exact absurd (hsplit.1 ▸ hinv) ha
          | cons b l₁' =>
            simp only [List.cons_append, List.cons.injEq] at hsplit
            exact ⟨l₁', i, l₂, hsplit.2, fun j hj => hval j (by simp [hj]),
              hinv⟩
      · have hstep : Order.scanAuthorizations (a :: rest) = none := by
          simp [Order.scanAuthorizations, ha, hv]
        rw [hstep]
        constructor
        · intro h
          exact absurd h (by simp)
        · rintro ⟨l₁, i, l₂, hsplit, hval, hinv⟩
          cases l₁ with
          | nil =>
            simp only [List.nil_append, List.cons.injEq] at hsplit
            exact absurd (hsplit.1 ▸ hinv) ha
          | cons b l₁' =>
            simp only [List.cons_append, List.cons.injEq] at hsplit
            exact absurd (hsplit.1 ▸ hval b (by simp)) (by simp [hv])

theorem scanAuthorizations_cases (l : List Identifier) :
    Order.scanAuthorizations l = some OrderStatus.ready ∨
      Order.scanAuthorizations l = some OrderStatus.invalid ∨
      Order.scanAuthorizations l = none := by
  induction l with
  | nil => simp [Order.scanAuthorizations]
  | cons a rest ih =>
    by_cases ha : a.authorization.status = AuthorizationStatus.invalid
    · simp [Order.scanAuthorizations, ha]
    · by_cases hv : a.authorization.is_valid = true
      · simpa [Order.scanAuthorizations, ha, hv] using ih
      · simp [Order.scanAuthorizations, ha, hv]

/-- C1, counterexample. —  An order that is `pending`, unexpired, and has an
identifier whose authorization is `invalid` — yet `validate()` leaves it
`pending`, because the scan breaks at the earlier identifier whose
authorization is merely `pending` and never reaches the invalid one.  The
claim says such an order becomes `invalid`. -/
theorem C1_counterexample :
    (∃ i ∈ (Order.mk OrderStatus.pending 10 "k"
        [⟨"a", ⟨AuthorizationStatus.pending, []⟩⟩,
         ⟨"b", ⟨AuthorizationStatus.invalid, []⟩⟩]).identifiers,
        i.authorization.status = AuthorizationStatus.invalid) ∧
    (Order.mk OrderStatus.pending 10 "k"
        [⟨"a", ⟨AuthorizationStatus.pending, []⟩⟩,
         ⟨"b", ⟨AuthorizationStatus.invalid, []⟩⟩]).status = OrderStatus.pending ∧
    ¬ (0 : Nat) > 10 ∧
    (Order.validate 0 (Order.mk OrderStatus.pending 10 "k"
        [⟨"a", ⟨AuthorizationStatus.pending, []⟩⟩,
         ⟨"b", ⟨AuthorizationStatus.invalid, []⟩⟩])).2 ≠ OrderStatus.invalid := by
  refine ⟨⟨⟨"b", ⟨AuthorizationStatus.invalid, []⟩⟩, by simp, rfl⟩, rfl, by simp, ?_⟩
  simp [Order.validate, Order.scanAuthorizations, Authorization.is_valid]

/-- C1 (amended). —  `Order.validate` is a no-op returning the current status
when the status is not `pending`; when `pending` and past expiry it sets the
status to `invalid`; otherwise it scans the identifiers in list order and the
order becomes `invalid` exactly when some identifier with an `invalid`
authorization is preceded only by valid authorizations (not whenever *any*
authorization is invalid), becomes `ready` exactly when every authorization is
valid, and stays `pending` in all remaining cases; the returned status is
always the order's resulting status. -/
theorem C1_order_validate_characterization (now : Nat) (o : Order) :
    ((Order.validate now o).1 = { o with status := (Order.validate now o).2 }) ∧
    (o.status ≠ OrderStatus.pending → Order.validate now o = (o, o.status)) ∧
    (o.status = OrderStatus.pending → now > o.expires →
      (Order.validate now o).2 = OrderStatus.invalid) ∧
    (o.status = OrderStatus.pending → ¬ now > o.expires →
      (((Order.validate now o).2 = OrderStatus.invalid ↔
          ∃ l₁ i l₂, o.identifiers = l₁ ++ i :: l₂ ∧
            (∀ j ∈ l₁, j.authorization.is_valid = true) ∧
            i.authorization.status = AuthorizationStatus.invalid) ∧
        ((Order.validate now o).2 = OrderStatus.ready ↔
          ∀ i ∈ o.identifiers, i.authorization.is_valid = true) ∧
        ((Order.validate now o).2 ≠ OrderStatus.invalid →
          (Order.validate now o).2 ≠ OrderStatus.ready →
          (Order.validate now o).2 = OrderStatus.pending))) := by
  refine ⟨?_, ?_, ?_, ?_⟩
  · by_cases h : o.status = OrderStatus.pending
    · by_cases hexp : now > o.expires
      · simp [Order.validate, h, hexp]
      · cases hscan : Order.scanAuthorizations o.identifiers with
        | some s => simp [Order.validate, h, hexp, hscan]
        | none =>
          simp only [Order.validate, h, hexp, hscan]
          simp [← h]
    · simp [Order.validate, h]
  · intro h
    simp [Order.validate, h]
  · intro h hexp
    simp [Order.validate, h, hexp]
  · intro h hexp
    have hval : Order.validate now o =
        match Order.scanAuthorizations o.identifiers with
        | some s => ({ o with status := s }, s)
        | none => (o, o.status) := by
      simp [Order.validate, h, hexp]
    refine ⟨?_, ?_, ?_⟩
    · rw [hval, ← scanAuthorizations_eq_invalid_iff]
      cases hscan : Order.scanAuthorizations o.identifiers with
      | none => simp [hscan, h]
      | some s => simp [hscan]
    · rw [hval, ← scanAuthorizations_eq_ready_iff]
      cases hscan : Order.scanAuthorizations o.identifiers with
      | none => simp [hscan, h]
      | some s => simp [hscan]
    · rw [hval]
      cases hscan : Order.scanAuthorizations o.identifiers with
      | none => simp [h]
      | some s =>
        rcases scanAuthorizations_cases o.identifiers with hc | hc | hc <;>
          rw [hscan] at hc
        · cases hc
          simp
        · cases hc
          simp
        · cases hc

/-- C1, witness — for the amended characterization at a concrete input. -/
theorem C1_witness :
    (Order.validate 0 (Order.mk OrderStatus.pending 10 "k"
        [⟨"a", ⟨AuthorizationStatus.valid, []⟩⟩])).2 = OrderStatus.ready := by
  have h := C1_order_validate_characterization 0
    (Order.mk OrderStatus.pending 10 "k" [⟨"a", ⟨AuthorizationStatus.valid, []⟩⟩])
  exact (h.2.2.2 rfl (by simp)).2.1.mpr (by
    intro i hi
    simp at hi
    simp [hi, Authorization.is_valid])

/-- C2. —  Consuming a token succeeds and removes exactly that token from
the outstanding set when it is present, and fails with `badNonce` (returning
no new set, so the registry is unchanged) when it is absent; consequently a
second consume of the same token after a successful one fails with
`badNonce`. -/
theorem C2_nonce_consume (s : Finset String) (t : String) :
    (t ∈ s →
      verify_nonce s t = Except.ok (s.erase t) ∧
      t ∉ s.erase t ∧
      (∀ u, u ≠ t → (u ∈ s.erase t ↔ u ∈ s)) ∧
      verify_nonce (s.erase t) t = Except.error AcmeError.badNonce) ∧
    (t ∉ s → verify_nonce s t = Except.error AcmeError.badNonce) := by
  constructor
  · intro ht
    refine ⟨by simp [verify_nonce, ht], Finset.not_mem_erase t s, ?_, ?_⟩
    · intro u hu
      simp [Finset.mem_erase, hu]
    · simp [verify_nonce, Finset.not_mem_erase t s]
  · intro ht
    simp [verify_nonce, ht]

/-- C2, witness. — -/
theorem C2_witness :
    verify_nonce {"n1", "n2"} "n1" =
      Except.ok (({"n1", "n2"} : Finset String).erase "n1") ∧
    verify_nonce (({"n1", "n2"} : Finset String).erase "n1") "n1" =
      Except.error AcmeError.badNonce ∧
    verify_nonce {"n1", "n2"} "n3" = Except.error AcmeError.badNonce := by
  refine ⟨((C2_nonce_consume {"n1", "n2"} "n1").1 (by decide)).1,
    ((C2_nonce_consume {"n1", "n2"} "n1").1 (by decide)).2.2.2,
    (C2_nonce_consume {"n1", "n2"} "n3").2 (by decide)⟩

/-- C3. —  `Challenge.validate` is a pure no-op when the status is `valid` or
`invalid`; when `pending` or `processing` it sets the status to `valid`,
records the validation timestamp, triggers the parent authorization's
finalization and returns `valid`; calling it twice returns `valid` both times
and triggers the parent operation only the first time. -/
theorem C3_challenge_validate (now now' : Nat) (c : Challenge) :
    ((c.status = ChallengeStatus.valid ∨ c.status = ChallengeStatus.invalid) →
      Challenge.validate now c = (c, false, c.status)) ∧
    ((c.status = ChallengeStatus.pending ∨ c.status = ChallengeStatus.processing) →
      Challenge.validate now c =
        ({ c with status := ChallengeStatus.valid, validated := some now },
          true, ChallengeStatus.valid)) ∧
    ((c.status = ChallengeStatus.pending ∨ c.status = ChallengeStatus.processing) →
      (Challenge.validate now c).2.2 = ChallengeStatus.valid ∧
      (Challenge.validate now' (Challenge.validate now c).1).2.2 =
        ChallengeStatus.valid ∧
      (Challenge.validate now' (Challenge.validate now c).1).1 =
        (Challenge.validate now c).1 ∧
      (Challenge.validate now' (Challenge.validate now c).1).2.1 = false) := by
  refine ⟨?_, ?_, ?_⟩
  · rintro (h | h) <;> simp [Challenge.validate, h]
  · rintro (h | h) <;> simp [Challenge.validate, h]
  · rintro (h | h) <;> simp [Challenge.validate, h]

/-- C3, witness. — -/
theorem C3_witness :
    Challenge.validate 5 ⟨ChallengeType.http01, ChallengeStatus.pending, none⟩ =
      (⟨ChallengeType.http01, ChallengeStatus.valid, some 5⟩, true,
        ChallengeStatus.valid) := by
  exact ((C3_challenge_validate 5 6
    ⟨ChallengeType.http01, ChallengeStatus.pending, none⟩).2.1 (Or.inl rfl))

/-- C4, counterexample. —  A request whose protected header carries *both* a
jwk and a kid (with a valid nonce) fails with an `AssertionError` from the
bare `assert`, not with the `Malformed` ACME error the claim names; the same
holds with *neither* present. -/
theorem C4_counterexample :
    verify_request {"n"} false
        ⟨some "n", some "jwkdata", some "https://ca/acme/accounts/abc", true⟩ =
      Except.error AcmeError.assertionFailed ∧
    verify_request {"n"} false ⟨some "n", none, none, true⟩ =
      Except.error AcmeError.assertionFailed ∧
    AcmeError.assertionFailed ≠ AcmeError.malformed := by
  refine ⟨?_, ?_, by decide⟩ <;>
    simp [verify_request, verify_nonce]

/-- C4 (amended). —  When the protected header carries both a jwk and a kid,
or neither, request verification fails — but with an `AssertionError` (the
bare `assert`), not with the `Malformed` error; `Malformed` is raised exactly
when no key authorization is requested and the kid is Python-falsy (missing
*or* present but empty, since `elif sig.combined.kid:` tests truthiness) —
after the assert that means either a jwk with no kid, or an empty kid with no
jwk. -/
theorem C4_both_or_neither (nonces : Finset String) (key_auth : Bool)
    (r : SignedRequest) :
    (r.jwk.isSome = r.kid.isSome →
      ∀ e, verify_request nonces key_auth r = Except.error e →
        e = AcmeError.badNonce ∨ e = AcmeError.assertionFailed) ∧
    (r.jwk.isSome = r.kid.isSome →
      (∃ n, r.nonce = some n ∧ n ∈ nonces) →
      verify_request nonces key_auth r = Except.error AcmeError.assertionFailed) ∧
    (verify_request nonces key_auth r = Except.error AcmeError.malformed →
      key_auth = false ∧ truthy r.kid = false ∧ ¬ r.jwk.isSome = r.kid.isSome) ∧
    (key_auth = false → ¬ r.jwk.isSome = r.kid.isSome → truthy r.kid = false →
      (∃ n, r.nonce = some n ∧ n ∈ nonces) →
      verify_request nonces key_auth r = Except.error AcmeError.malformed) := by
  refine ⟨?_, ?_, ?_, ?_⟩
  · intro hx e he
    cases hn : r.nonce with
    | none =>
      simp [verify_request, hn] at he
      exact Or.inl he.symm
    | some n =>
      by_cases hmem : n ∈ nonces
      · simp [verify_request, hn, verify_nonce, hmem, hx] at he
        exact Or.inr he.symm
      · simp [verify_request, hn, verify_nonce, hmem] at he
        exact Or.inl he.symm
  · rintro hx ⟨n, hn, hmem⟩
    simp [verify_request, hn, verify_nonce, hmem, hx]
  · intro he
    cases hn : r.nonce with
    | none => simp [verify_request, hn] at he
    | some n =>
      by_cases hmem : n ∈ nonces
      · by_cases hx : r.jwk.isSome = r.kid.isSome
        · simp [verify_request, hn, verify_nonce, hmem, hx] at he
        · cases hk : r.kid with
          | some k =>
            cases hauth : key_auth with
            | true =>
              by_cases hs : r.sigOk = true <;>
                simp [verify_request, hn, verify_nonce, hmem, hx, hauth, hs] at he
            | false =>
              have hj : r.jwk.isSome = false := by
                rw [hk] at hx
                simpa using hx
              by_cases hke : k.isEmpty = true
              · refine ⟨rfl, by simp [truthy, hke], ?_⟩
                rw [hk] at hx
                exact hx
              · simp [verify_request, hn, verify_nonce, hmem, hauth, hk,
                  hj, hke] at he
          | none =>
            cases hauth : key_auth with
            | true =>
              by_cases hs : r.sigOk = true <;>
                simp [verify_request, hn, verify_nonce, hmem, hx, hauth, hs] at he
            | false =>
              refine ⟨rfl, rfl, ?_⟩
              rw [hk] at hx
              exact hx
      · simp [verify_request, hn, verify_nonce, hmem] at he
  · rintro hauth hx hkid ⟨n, hn, hmem⟩
    cases hk : r.kid with
    | none =>
      have hj : r.jwk.isSome = true := by
        rw [hk] at hx
        exact Option.isSome_iff_ne_none.mpr (by simpa using hx)
      simp [verify_request, hn, verify_nonce, hmem, hauth, hk, hj]
    | some k =>
      have hke : k.isEmpty = true := by
        rw [hk] at hkid
        simpa [truthy] using hkid
      have hj : r.jwk.isSome = false := by
        rw [hk] at hx
        simpa using hx
      simp [verify_request, hn, verify_nonce, hmem, hauth, hk, hj, hke]

/-- C4, witness — for the amended statement at a concrete input. -/
theorem C4_witness :
    verify_request {"n"} true ⟨some "n", some "jwkdata", some "kid", true⟩ =
      Except.error AcmeError.assertionFailed := by
  exact (C4_both_or_neither {"n"} true
    ⟨some "n", some "jwkdata", some "kid", true⟩).2.1 rfl ⟨"n", rfl, by decide⟩

/-- C5, counterexample. —  A `pending` (hence not `ready`) order whose single
authorization is valid: the finalize handler first recomputes the status
(`order.finalize`), which turns the order `ready`, and the attempt does *not*
fail with `OrderNotReady`.  Moreover nothing in the handler moves a `ready`
order out of `ready` (issuance is a stub), so successful finalize attempts can
repeat — completion is not at-most-once. -/
theorem C5_counterexample :
    (Order.mk OrderStatus.pending 10 "k"
        [⟨"a", ⟨AuthorizationStatus.valid, []⟩⟩]).status ≠ OrderStatus.ready ∧
    finalize_order 0
        (Order.mk OrderStatus.pending 10 "k"
          [⟨"a", ⟨AuthorizationStatus.valid, []⟩⟩]) ⟨["a"]⟩ =
      Except.ok (Order.mk OrderStatus.ready 10 "k"
        [⟨"a", ⟨AuthorizationStatus.valid, []⟩⟩]) ∧
    finalize_order 0
        (Order.mk OrderStatus.ready 10 "k"
          [⟨"a", ⟨AuthorizationStatus.valid, []⟩⟩]) ⟨["a"]⟩ =
      Except.ok (Order.mk OrderStatus.ready 10 "k"
        [⟨"a", ⟨AuthorizationStatus.valid, []⟩⟩]) := by
  refine ⟨by simp, ?_, ?_⟩ <;>
    simp [finalize_order, Order.validate, Order.scanAuthorizations,
      Authorization.is_valid]

/-- C5 (amended). —  A finalize-order attempt on an order whose status is
`valid`, `processing` or `invalid` fails with `OrderNotReady`, and the status
recomputation it runs is a no-op on such an order; an attempt on a `ready`
order passes the guard and returns the order unchanged (the issuance path is a
stub), so a *pending* order may pass the guard after recomputation and
successful attempts are repeatable. -/
theorem C5_finalize_not_ready (now : Nat) (o : Order) (csr : CSR) :
    ((o.status = OrderStatus.valid ∨ o.status = OrderStatus.processing ∨
        o.status = OrderStatus.invalid) →
      finalize_order now o csr = Except.error AcmeError.orderNotReady ∧
      Order.validate now o = (o, o.status)) ∧
    (o.status = OrderStatus.ready → finalize_order now o csr = Except.ok o) := by
  constructor
  · intro h
    have hne : o.status ≠ OrderStatus.pending := by
      rcases h with h | h | h <;> simp [h]
    have hval : Order.validate now o = (o, o.status) := by
      simp [Order.validate, hne]
    refine ⟨?_, hval⟩
    have hnr : o.status ≠ OrderStatus.ready := by
      rcases h with h | h | h <;> simp [h]
    simp [finalize_order, hval, hnr]
  · intro h
    have hval : Order.validate now o = (o, o.status) := by
      simp [Order.validate, h]
    simp [finalize_order, hval, h]

/-- C5, witness — for the amended statement at concrete inputs. -/
theorem C5_witness :
    finalize_order 3 (Order.mk OrderStatus.invalid 10 "k" []) ⟨[]⟩ =
      Except.error AcmeError.orderNotReady ∧
    finalize_order 3 (Order.mk OrderStatus.ready 10 "k" []) ⟨[]⟩ =
      Except.ok (Order.mk OrderStatus.ready 10 "k" []) := by
  exact ⟨((C5_finalize_not_ready 3 (Order.mk OrderStatus.invalid 10 "k" []) ⟨[]⟩).1
      (Or.inr (Or.inr rfl))).1,
    (C5_finalize_not_ready 3 (Order.mk OrderStatus.ready 10 "k" []) ⟨[]⟩).2 rfl⟩

/-- C6, counterexample. —  A `ready` order requesting `a.example.com` and
`b.example.com` finalized with a CSR naming only `a.example.com`: the CSR-name
check `validate_csr` rejects the CSR, yet the finalize handler succeeds — this
version of the handler never invokes the CSR check, so no `CsrMismatch`
failure occurs on a discrepancy. -/
theorem C6_counterexample :
    Order.validate_csr
        (Order.mk OrderStatus.ready 10 "k"
          [⟨"a.example.com", ⟨AuthorizationStatus.valid, []⟩⟩,
           ⟨"b.example.com", ⟨AuthorizationStatus.valid, []⟩⟩])
        ⟨["a.example.com"]⟩ = false ∧
    finalize_order 0
        (Order.mk OrderStatus.ready 10 "k"
          [⟨"a.example.com", ⟨AuthorizationStatus.valid, []⟩⟩,
           ⟨"b.example.com", ⟨AuthorizationStatus.valid, []⟩⟩])
        ⟨["a.example.com"]⟩ =
      Except.ok (Order.mk OrderStatus.ready 10 "k"
        [⟨"a.example.com", ⟨AuthorizationStatus.valid, []⟩⟩,
         ⟨"b.example.com", ⟨AuthorizationStatus.valid, []⟩⟩]) := by
  constructor
  · decide
  · simp [finalize_order, Order.validate]

/-- C6 (amended). —  `Order.validate_csr` returns `true` exactly when the
lowercased identifier values of the order and the lowercased names of the CSR
coincide as sets; however the CA's finalize handler in this version never
calls it, so a discrepancy does not make finalization fail with
`CsrMismatch`. -/
theorem C6_validate_csr_iff (o : Order) (csr : CSR) :
    Order.validate_csr o csr = true ↔
      ∀ s : String, (∃ i ∈ o.identifiers, strLower i.value = s) ↔
        ∃ n ∈ csr.names, strLower n = s := by
  unfold Order.validate_csr names_of
  rw [decide_eq_true_eq, Finset.ext_iff]
  constructor
  · intro h s
    have hs := h s
    simpa [List.mem_toFinset] using hs
  · intro h s
    have hs := h s
    simpa [List.mem_toFinset] using hs

/-- C6, witness —: the amended characterization applied at a concrete
matching order/CSR pair. -/
theorem C6_witness :
    Order.validate_csr
        (Order.mk OrderStatus.ready 10 "k"
          [⟨"A.Example.Com", ⟨AuthorizationStatus.valid, []⟩⟩])
        ⟨["a.example.com"]⟩ = true := by
  refine (C6_validate_csr_iff
    (Order.mk OrderStatus.ready 10 "k"
      [⟨"A.Example.Com", ⟨AuthorizationStatus.valid, []⟩⟩])
    ⟨["a.example.com"]⟩).mpr ?_
  intro s
  constructor
  · rintro ⟨i, hi, hv⟩
    simp at hi
    exact ⟨"a.example.com", by simp, by rw [← hv, hi]; decide⟩
  · rintro ⟨n, hn, hv⟩
    simp at hn
    refine ⟨⟨"A.Example.Com", ⟨AuthorizationStatus.valid, []⟩⟩, by simp, ?_⟩
    rw [← hv, hn]
    decide

theorem head?_filter_spec {α : Type} (p : α → Bool) (l : List α) (x : α)
    (h : (l.filter p).head? = some x) : x ∈ l ∧ p x = true := by
  cases hl : l.filter p with
  | nil => rw [hl] at h; cases h
  | cons y ys =>
    rw [hl] at h
    have hx : y = x := by injection h
    subst hx
    have hy : y ∈ l.filter p := by
      rw [hl]
      exact List.mem_cons_self y ys
    exact ⟨List.mem_of_mem_filter hy, (List.mem_filter.mp hy).2⟩

/-- C7. —  Entity lookups are scoped by the requesting account's key
identifier: an order owned by account `K1`, and an authorization or challenge
whose every identifier/order join chain leads to an account-kid `K1`, is never
returned by `get_order`/`get_authz`/`get_challenge` when the requesting kid is
`K2 ≠ K1` — the lookup finds nothing. -/
theorem C7_cross_account_lookup (db : DB) (K1 K2 : String) (hK : K2 ≠ K1) :
    (∀ o : OrderRow, o.account_kid = K1 →
      ∀ oid, db.get_order K2 oid ≠ some o) ∧
    (∀ az : AuthorizationRow,
      (∀ i ∈ db.identifiers, i.identifier_id = az.identifier_id →
        ∀ o ∈ db.orders, o.order_id = i.order_id → o.account_kid = K1) →
      ∀ aid, db.get_authz K2 aid ≠ some az) ∧
    (∀ c : ChallengeRow,
      (∀ az ∈ db.authorizations, az.authorization_id = c.authorization_id →
        ∀ i ∈ db.identifiers, i.identifier_id = az.identifier_id →
          ∀ o ∈ db.orders, o.order_id = i.order_id → o.account_kid = K1) →
      ∀ cid, db.get_challenge K2 cid ≠ some c) := by
  refine ⟨?_, ?_, ?_⟩
  · intro o ho oid h
    have hp := (head?_filter_spec _ _ _ h).2
    simp only [decide_eq_true_eq, List.any_eq_true] at hp
    obtain ⟨-, a, -, ha, hkid⟩ := hp
    exact hK (hkid.trans (ha.trans ho))
  · intro az hchain aid h
    have hp := (head?_filter_spec _ _ _ h).2
    simp only [decide_eq_true_eq, List.any_eq_true] at hp
    obtain ⟨-, i, hi_mem, hi_id, o, ho_mem, ho_id, a, -, ha, hkid⟩ := hp
    have : o.account_kid = K1 := hchain i hi_mem hi_id o ho_mem ho_id
    exact hK (hkid.trans (ha.trans this))
  · intro c hchain cid h
    have hp := (head?_filter_spec _ _ _ h).2
    simp only [decide_eq_true_eq, List.any_eq_true] at hp
    obtain ⟨-, az, haz_mem, haz_id, i, hi_mem, hi_id, o, ho_mem, ho_id,
      a, -, ha, hkid⟩ := hp
    have : o.account_kid = K1 :=
      hchain az haz_mem haz_id i hi_mem hi_id o ho_mem ho_id
    exact hK (hkid.trans (ha.trans this))

/-- C7, witness —: a one-account database with one order, one authorization
and one challenge owned by `k1`; a lookup as `k2` finds none of them. -/
theorem C7_witness :
    (DB.mk [⟨"key", "k1", AccountStatus.valid, []⟩] [⟨"o1", "k1"⟩]
        [⟨"i1", "o1"⟩] [⟨"az1", "i1"⟩] [⟨"ch1", "az1"⟩] []).get_order
        "k2" "o1" ≠ some ⟨"o1", "k1"⟩ ∧
    (DB.mk [⟨"key", "k1", AccountStatus.valid, []⟩] [⟨"o1", "k1"⟩]
        [⟨"i1", "o1"⟩] [⟨"az1", "i1"⟩] [⟨"ch1", "az1"⟩] []).get_authz
        "k2" "az1" ≠ some ⟨"az1", "i1"⟩ ∧
    (DB.mk [⟨"key", "k1", AccountStatus.valid, []⟩] [⟨"o1", "k1"⟩]
        [⟨"i1", "o1"⟩] [⟨"az1", "i1"⟩] [⟨"ch1", "az1"⟩] []).get_challenge
        "k2" "ch1" ≠ some ⟨"ch1", "az1"⟩ := by
  refine ⟨(C7_cross_account_lookup _ "k1" "k2" (by decide)).1 ⟨"o1", "k1"⟩ rfl "o1",
    (C7_cross_account_lookup _ "k1" "k2" (by decide)).2.1 ⟨"az1", "i1"⟩ ?_ "az1",
    (C7_cross_account_lookup _ "k1" "k2" (by decide)).2.2 ⟨"ch1", "az1"⟩ ?_ "ch1"⟩
  · intro i hi _ o ho _
    simp at hi ho
    simp [hi, ho]
  · intro az haz _ i hi _ o ho _
    simp at hi ho
    simp [hi, ho]

/-- C8, counterexample. —  Registering with `terms_of_service_agreed = false`
but with a key that already has a valid account: `_new_account` returns the
existing account (HTTP 200) instead of failing with `TermsNotAgreed` — the
terms check is reached only when no account exists for the key. -/
theorem C8_counterexample :
    (⟨false, false, []⟩ : Registration).terms_of_service_agreed = false ∧
    new_account (fun k => k) [⟨"key1", "kid1", AccountStatus.valid, []⟩]
        "key1" ⟨false, false, []⟩ =
      Except.ok ([⟨"key1", "kid1", AccountStatus.valid, []⟩],
        NewAccountResult.existing ⟨"key1", "kid1", AccountStatus.valid, []⟩) := by
  refine ⟨rfl, ?_⟩
  simp [new_account, get_account_by_key]

/-- C8 (amended). —  When no account exists for the key and
`onlyReturnExisting` is not set, a registration with
`terms_of_service_agreed = false` fails with `TermsNotAgreed` and creates no
account (the failure branch adds nothing to the account list). -/
theorem C8_terms_not_agreed (digest : String → String) (accounts : List Account)
    (key : String) (reg : Registration)
    (hnone : get_account_by_key accounts key = none)
    (hret : reg.only_return_existing = false)
    (hterms : reg.terms_of_service_agreed = false) :
    new_account digest accounts key reg = Except.error AcmeError.termsNotAgreed := by
  simp [new_account, hnone, hret, hterms]

/-- C8, witness. — -/
theorem C8_witness :
    new_account (fun k => k) [] "key1" ⟨false, false, []⟩ =
      Except.error AcmeError.termsNotAgreed := by
  exact C8_terms_not_agreed (fun k => k) [] "key1" ⟨false, false, []⟩ rfl rfl rfl

/-- C9. —  `Order.from_obj` builds an order with status `pending`, expiring
exactly 7 days (604800 seconds) after creation, with one identifier per
requested name (in order), each identifier owning one authorization whose
challenges are exactly one `pending` challenge per configured type. -/
theorem C9_from_obj (now : Nat) (kid : String) (obj : NewOrderObj)
    (types : List ChallengeType) :
    (Order.from_obj now kid obj types).status = OrderStatus.pending ∧
    (Order.from_obj now kid obj types).expires = now + 7 * 86400 ∧
    (Order.from_obj now kid obj types).account_kid = kid ∧
    ((Order.from_obj now kid obj types).identifiers.map Identifier.value) =
      obj.identifiers ∧
    (∀ i ∈ (Order.from_obj now kid obj types).identifiers,
      (i.authorization.challenges.map Challenge.type) = types ∧
      ∀ c ∈ i.authorization.challenges, c.status = ChallengeStatus.pending) := by
  refine ⟨rfl, rfl, rfl, ?_, ?_⟩
  · simp [Order.from_obj, Function.comp_def]
  · intro i hi
    simp only [Order.from_obj, List.mem_map] at hi
    obtain ⟨v, -, hv⟩ := hi
    subst hv
    constructor
    · simp [Authorization.for_identifier, Challenge.create_types,
        List.map_map, Function.comp_def]
    · intro c hc
      simp only [Authorization.for_identifier, Challenge.create_types,
        List.mem_map] at hc
      obtain ⟨t, -, ht⟩ := hc
      subst ht
      rfl

/-- C9, witness. — -/
theorem C9_witness :
    (Order.from_obj 100 "k" ⟨["example.org"]⟩
        [ChallengeType.http01, ChallengeType.dns01]).status =
      OrderStatus.pending ∧
    (Order.from_obj 100 "k" ⟨["example.org"]⟩
        [ChallengeType.http01, ChallengeType.dns01]).expires = 100 + 7 * 86400 ∧
    ((Order.from_obj 100 "k" ⟨["example.org"]⟩
        [ChallengeType.http01, ChallengeType.dns01]).identifiers.map
      Identifier.value) = ["example.org"] := by
  have h := C9_from_obj 100 "k" ⟨["example.org"]⟩
    [ChallengeType.http01, ChallengeType.dns01]
  exact ⟨h.1, h.2.1, h.2.2.2.1⟩

/-- C10. —  `Database.get_certificate` raises `ValueError` (performing no
lookup) exactly when neither both `kid` and `certificate_id` are truthy nor a
certificate is supplied; with both `kid` and `certificate_id` truthy the
lookup succeeds and any returned row is scoped to the account kid and the
certificate id; otherwise, with a certificate supplied, the lookup is by the
raw certificate bytes. -/
theorem C10_get_certificate (db : DB) (kid certificate_id certificate : Option String) :
    ((¬ (truthy kid = true ∧ truthy certificate_id = true)) → certificate = none →
      DB.get_certificate db kid certificate_id certificate =
        Except.error "Either kid and certificate_id OR certificate should be specified") ∧
    (truthy kid = true → truthy certificate_id = true →
      ∃ r, DB.get_certificate db kid certificate_id certificate = Except.ok r ∧
        ∀ cert, r = some cert → cert ∈ db.certificates ∧
          some cert.account_kid = kid ∧ some cert.certificate_id = certificate_id) ∧
    ((¬ (truthy kid = true ∧ truthy certificate_id = true)) →
      ∀ v, certificate = some v →
      ∃ r, DB.get_certificate db kid certificate_id certificate = Except.ok r ∧
        ∀ cert, r = some cert → cert ∈ db.certificates ∧ cert.cert = v) := by
  refine ⟨?_, ?_, ?_⟩
  · intro hnot hcert
    simp [DB.get_certificate, hnot, hcert]
  · intro hk hc
    unfold DB.get_certificate
    rw [if_pos (⟨hk, hc⟩ : truthy kid = true ∧ truthy certificate_id = true)]
    refine ⟨_, rfl, ?_⟩
    intro cert hhead
    have hp := head?_filter_spec _ _ _ hhead
    refine ⟨hp.1, ?_⟩
    have h2 := hp.2
    simpa using h2
  · intro hnot v hcert
    subst hcert
    unfold DB.get_certificate
    rw [if_neg hnot, if_pos (by simp : (some v).isSome = true)]
    refine ⟨_, rfl, ?_⟩
    intro cert hhead
    have hp := head?_filter_spec _ _ _ hhead
    refine ⟨hp.1, ?_⟩
    have h2 := hp.2
    simpa using h2

/-- C10, witness —: concrete calls exercising all three branches. -/
theorem C10_witness :
    (DB.mk [] [] [] [] [] [⟨"c1", "k1", "certbytes"⟩]).get_certificate
        none none none =
      Except.error "Either kid and certificate_id OR certificate should be specified" ∧
    (∃ r, (DB.mk [] [] [] [] [] [⟨"c1", "k1", "certbytes"⟩]).get_certificate
        (some "k1") (some "c1") none = Except.ok r) ∧
    (∃ r, (DB.mk [] [] [] [] [] [⟨"c1", "k1", "certbytes"⟩]).get_certificate
        none none (some "certbytes") = Except.ok r) := by
  have h₁ := (C10_get_certificate (DB.mk [] [] [] [] [] [⟨"c1", "k1", "certbytes"⟩])
    none none none).1 (by simp [truthy]) rfl
  have h₂ := (C10_get_certificate (DB.mk [] [] [] [] [] [⟨"c1", "k1", "certbytes"⟩])
    (some "k1") (some "c1") none).2.1 (by decide) (by decide)
  have h₃ := (C10_get_certificate (DB.mk [] [] [] [] [] [⟨"c1", "k1", "certbytes"⟩])
    none none (some "certbytes")).2.2 (by simp [truthy]) "certbytes" rfl
  exact ⟨h₁, ⟨h₂.choose, h₂.choose_spec.1⟩, ⟨h₃.choose, h₃.choose_spec.1⟩⟩

end Acme
